import Mathlib

/-!
Shallow embedding of `vcfkit.py` (class `VcfFile`) and proofs about the
behaviour of its loader and query methods.

Python string primitives are modelled on `List Char` with structural (or
fuel-based) recursion so that every definition evaluates by kernel
reduction on concrete inputs.
-/

/-- Does `sub` occur as a contiguous run somewhere in `cs`? -/
def containsSeq (sub : List Char) : List Char → Bool
  | [] => sub.isEmpty
  | c :: cs => List.isPrefixOf sub (c :: cs) || containsSeq sub cs

/-- Python `sub in s` (substring containment). -/
def pyIn (sub s : String) : Bool := containsSeq sub.toList s.toList

/-- Python `s.startswith(pre)`. -/
def pyStartswith (s pre : String) : Bool := List.isPrefixOf pre.toList s.toList

/-- Drop `p`-characters from both ends of a character list. -/
def trimChars (p : Char → Bool) (cs : List Char) : List Char :=
  ((cs.dropWhile p).reverse.dropWhile p).reverse

/-- Python `s.strip()` (no argument: strips whitespace from both ends). -/
def pyStrip (s : String) : String := String.mk (trimChars Char.isWhitespace s.toList)

/-- Python `s.strip(">")`: strips `>` characters from both ends. -/
def pyStripGt (s : String) : String := String.mk (trimChars (fun c => c == '>') s.toList)

/-- Python `s[n:]`. -/
def strDrop (s : String) (n : Nat) : String := String.mk (s.toList.drop n)

/-- Worker for Python `str.split(sep)` with a non-empty separator: scans left
to right, cutting at each non-overlapping occurrence of `sep`.  The fuel is
the length of the input, which suffices because each step consumes at least
one character. -/
def splitGo (sep : List Char) : Nat → List Char → List Char → List (List Char)
  | _, [], acc => [acc.reverse]
  | 0, cs, acc => [acc.reverse ++ cs]
  | fuel+1, c :: cs, acc =>
    if List.isPrefixOf sep (c :: cs) then
      acc.reverse :: splitGo sep fuel (List.drop sep.length (c :: cs)) []
    else
      splitGo sep fuel cs (c :: acc)

/-- Python `s.split(sep)` for a non-empty separator string. -/
def pySplit (s sep : String) : List String :=
  (splitGo sep.toList s.toList.length s.toList []).map String.mk

/-- Digits to a natural number (caller guarantees all characters are digits). -/
def digitsToNat (cs : List Char) : Nat :=
  cs.foldl (fun n c => 10 * n + (c.toNat - '0'.toNat)) 0

/-- Python `int(s)`: optional surrounding whitespace, optional sign, at least
one decimal digit; anything else raises `ValueError` (here: `none`). -/
def parsePyInt (s : String) : Option Int :=
  match trimChars Char.isWhitespace s.toList with
  | [] => none
  | '-' :: ds =>
    if ds ≠ [] ∧ ds.all Char.isDigit then some (-(digitsToNat ds : Int)) else none
  | '+' :: ds =>
    if ds ≠ [] ∧ ds.all Char.isDigit then some ((digitsToNat ds : Int)) else none
  | ds =>
    if ds.all Char.isDigit then some ((digitsToNat ds : Int)) else none

/-- A cell of the loaded table: pandas stores the raw split strings as
Python objects, padding ragged rows with a missing-value marker (`na`);
an integer-typed cell (`int`) is what the spec claims CHROM/POS become. -/
inductive Cell
  | str (s : String)
  | int (n : Int)
  | na
deriving DecidableEq, Repr

/-- Whether a cell holds an integer value. -/
def Cell.isIntCell : Cell → Bool
  | .int _ => true
  | _ => false

/-- Whether a cell is the missing-value marker. -/
def Cell.isNa : Cell → Bool
  | .na => true
  | _ => false

/-- A Python value supplied by a caller (e.g. an element of the collection
passed to `getChromosomes`): an `int` or a `str`.  Python equality between
an `int` and a `str` is always `False`. -/
inductive PyVal
  | int (n : Int)
  | str (s : String)
deriving DecidableEq, Repr

/-- Whether a caller-supplied value is an integer. -/
def PyVal.isIntVal : PyVal → Bool
  | .int _ => true
  | _ => false

/-- Python `item.split(sep)[-1]`. -/
def lastPartAfter (item sep : String) : String := (pySplit item sep).getLastD ""

/-- Python `item.split("=")[-1]`: the value stored for the scalar header keywords. -/
def scalarVal (item : String) : String := lastPartAfter item "="

/-- Python `item.split("ID=")[-1].split(",")[0]`: the identifier extracted for
INFO/FILTER/FORMAT declarations. -/
def declId (item : String) : String :=
  (pySplit (lastPartAfter item "ID=") ",").headD ""

/-- Python `item.strip(">").split("<")[-1].split(",")[1:]`: the attribute list stored
for INFO/FILTER/FORMAT declarations. -/
def declVal (item : String) : List String :=
  (pySplit (lastPartAfter (pyStripGt item) "<") ",").tail

/-- Python `item.strip(">").split(pat)[-1].split(",")[0]`: the contig sub-attribute
captured after the token `pat` (e.g. `"species="`). -/
def attrPart (item pat : String) : String :=
  (pySplit (lastPartAfter (pyStripGt item) pat) ",").headD ""

/-- Python dict assignment `d[k] = v` on an insertion-ordered association
list: replaces the value of an existing key in place, else appends. -/
def dictSet (d : List (String × List String)) (k : String) (v : List String) :
    List (String × List String) :=
  if d.any (fun kv => kv.1 == k) then
    d.map (fun kv => if kv.1 == k then (k, v) else kv)
  else d ++ [(k, v)]

/-- The attributes `VcfFile.__init__` assigns while scanning the meta lines.
Fields are `Option`-valued because the Python attributes simply do not exist
until the first assignment.  Note there is ONE set of contig attributes, not
a mapping keyed by contig ID. -/
structure HeaderState where
  fileformat : Option String := none
  fileDate : Option String := none
  source : Option String := none
  reference : Option String := none
  phasing : Option String := none
  contig : Option String := none
  contigSpecies : Option String := none
  contigLength : Option Int := none
  contigAssembly : Option String := none
  contigTaxonomy : Option String := none
  info : List (String × List String) := []
  filter : List (String × List String) := []
  format : List (String × List String) := []
deriving DecidableEq, Repr

/-- The state before the meta-line loop (`self.info = {}` etc.). -/
def emptyHeader : HeaderState := {}

/-- Final part of the contig branch: the `assembly` and `taxonomy`
sub-attributes, each assigned only when its token occurs in the line. -/
def contigTail (st : HeaderState) (item : String) : HeaderState :=
  let st4 := if pyIn "assembly" item then
    { st with contigAssembly := some (attrPart item "assembly=") } else st
  if pyIn "taxonomy" item then
    { st4 with contigTaxonomy := some (attrPart item "taxonomy=") } else st4

/-- The `elif item.startswith("contig")` branch of `VcfFile.__init__`:
`self.contig = item.split("contig=")[-1]`, then each of `species`, `length`,
`assembly`, `taxonomy` is assigned when its token occurs as a substring;
`length` goes through `int(...)`, whose `ValueError` aborts the load. -/
def processContig (st : HeaderState) (item : String) : Except String HeaderState :=
  let st1 := { st with contig := some (lastPartAfter item "contig=") }
  let st2 := if pyIn "species" item then
    { st1 with contigSpecies := some (attrPart item "species=") } else st1
  if pyIn "length" item then
    match parsePyInt (attrPart item "length=") with
    | some n => .ok (contigTail { st2 with contigLength := some n } item)
    | none => .error "ValueError: invalid literal for int with base 10"
  else .ok (contigTail st2 item)

/-- One iteration of the `for item in metaList` loop: the if/elif chain on
`item.startswith(...)`, in source order. -/
def processItem (st : HeaderState) (item : String) : Except String HeaderState :=
  if pyStartswith item "fileformat" then
    .ok { st with fileformat := some (scalarVal item) }
  else if pyStartswith item "fileDate" then
    .ok { st with fileDate := some (scalarVal item) }
  else if pyStartswith item "source" then
    .ok { st with source := some (scalarVal item) }
  else if pyStartswith item "contig" then
    processContig st item
  else if pyStartswith item "reference" then
    .ok { st with reference := some (scalarVal item) }
  else if pyStartswith item "phasing" then
    .ok { st with phasing := some (scalarVal item) }
  else if pyStartswith item "INFO" then
    .ok { st with info := dictSet st.info (declId item) (declVal item) }
  else if pyStartswith item "FILTER" then
    .ok { st with filter := dictSet st.filter (declId item) (declVal item) }
  else if pyStartswith item "FORMAT" then
    .ok { st with format := dictSet st.format (declId item) (declVal item) }
  else .ok st

/-- Python `metaList = [line[2:].strip() for line in lines if line.startswith("##")]`. -/
def metaItems (lines : List String) : List String :=
  (lines.filter (fun l => pyStartswith l "##")).map (fun l => pyStrip (strDrop l 2))

/-- The whole meta-line loop of `VcfFile.__init__`. -/
def processMeta (items : List String) : Except String HeaderState :=
  items.foldlM processItem emptyHeader

/-- The record table: pandas DataFrame after the column-header row has been
renamed into `columns` and dropped.  Every row is padded to the frame width
(`pd.DataFrame` pads ragged input rows with missing values). -/
structure VcfTable where
  columns : List String
  rows : List (List Cell)
deriving DecidableEq, Repr

/-- One raw row as `pd.DataFrame` stores it: the split fields, padded to the
frame width with missing-value markers. -/
def padRow (width : Nat) (fields : List String) : List Cell :=
  fields.map Cell.str ++ List.replicate (width - fields.length) Cell.na

/-- The non-meta lines of the input (`line.split("\t") for line in lines if
not line.startswith("##")`), fed to `pd.DataFrame`. -/
def tabLines (lines : List String) : List String :=
  lines.filter (fun l => !pyStartswith l "##")

/-- The width of the `pd.DataFrame` built from the split non-meta lines:
the maximum field count over the column-header row and all data rows
(pandas pads every shorter row to this width). -/
def frameWidth (headerLine : String) (dataLines : List String) : Nat :=
  ((pySplit headerLine "\t" :: dataLines.map (fun l => pySplit l "\t")).map
    List.length).foldl Nat.max 0

/-- The tabular part of `VcfFile.__init__`, given the column-header line
and the data lines: `columns = list(vcfdf.iloc[0])` is the padded header
row; `columns[-1].strip()` raises AttributeError when that last entry is
the pad marker (i.e. some data row is wider than the column-header row);
otherwise the columns are renamed (last name stripped) and the header row
dropped. -/
def buildTableRows (headerLine : String) (dataLines : List String) : Except String VcfTable :=
  match (padRow (frameWidth headerLine dataLines) (pySplit headerLine "\t")).getLast? with
  | some (Cell.str lastName) =>
    .ok { columns := (pySplit headerLine "\t").dropLast ++ [pyStrip lastName],
          rows := dataLines.map (fun l =>
            padRow (frameWidth headerLine dataLines) (pySplit l "\t")) }
  | _ => .error "AttributeError: float object has no attribute strip"

/-- The tabular part of `VcfFile.__init__`: `pd.DataFrame` over the
tab-split non-meta lines (`vcfdf.iloc[0]` raises IndexError when there is
none). -/
def buildTable (lines : List String) : Except String VcfTable :=
  match tabLines lines with
  | [] => .error "IndexError: single positional indexer is out-of-bounds"
  | headerLine :: dataLines => buildTableRows headerLine dataLines

/-- The constructed `VcfFile` object: header attributes plus the record
table. -/
structure VcfFile where
  header : HeaderState
  table : VcfTable
deriving DecidableEq, Repr

/-- Constructor `VcfFile.__init__` on the list of raw lines as `readlines()` returns
them (each line keeps its trailing newline): the meta loop runs first, then
the DataFrame is built; an exception in either aborts construction. -/
def loadVcf (lines : List String) : Except String VcfFile := do
  let h ← processMeta (metaItems lines)
  let t ← buildTable lines
  .ok { header := h, table := t }

/-- Column selection `self.vcfdf[name]`: `KeyError` when the label is
absent.  A duplicated label makes pandas return a frame-valued selection,
which none of the query methods support; that layout is modelled as an
error. -/
def colIdx (t : VcfTable) (name : String) : Except String Nat :=
  match t.columns.indexOf? name with
  | none => .error "KeyError"
  | some i =>
    if t.columns.count name == 1 then .ok i
    else .error "duplicate column labels: frame-valued selection unsupported"

/-- Row cell at a column index (a padded frame always has the cell; out of
range defends with the missing marker). -/
def cellAt (r : List Cell) (i : Nat) : Cell := r.getD i Cell.na

/-- Pandas `df[mask]`: keep the rows whose mask entry is `True`. -/
def maskFilter {α : Type} (xs : List α) (mask : List Bool) : List α :=
  ((xs.zip mask).filter (fun p => p.2)).map Prod.fst

/-- A query method either raises (modelled by `Except.error`), returns a
row selection, or returns one of the literal advice strings the source
hands back for bad arguments. -/
inductive QueryResult
  | rows (rs : List (List Cell))
  | message (s : String)
deriving DecidableEq, Repr

/-- The `self.vcfdf['FILTER'] == 'PASS'` membership test of one
cell: a missing marker or non-string never equals the string `"PASS"`. -/
def cellEqPass (c : Cell) : Bool := c == Cell.str "PASS"

/-- Method `VcfFile.qFilter`. -/
def qFilter (t : VcfTable) (passed : String) : Except String QueryResult :=
  if passed == "PASS" then
    (colIdx t "FILTER").map (fun i =>
      .rows (t.rows.filter (fun r => cellEqPass (cellAt r i))))
  else if passed == "FAIL" then
    (colIdx t "FILTER").map (fun i =>
      .rows (t.rows.filter (fun r => !cellEqPass (cellAt r i))))
  else .ok (.message "Please pass string argument \x27PASS\x27 or \x27FAIL\x27")

/-- Pandas `Series.isin(values)` on one cell: Python equality of the cell against
the caller-supplied collection (an `int` never equals a `str`; the missing
marker matches nothing in an int/str collection). -/
def isinCell (c : Cell) (vals : List PyVal) : Bool :=
  match c with
  | .str s => vals.contains (.str s)
  | .int n => vals.contains (.int n)
  | .na => false

/-- Method `VcfFile.getChromosomes`. -/
def getChromosomes (t : VcfTable) (chromList : List PyVal) : Except String QueryResult :=
  (colIdx t "#CHROM").map (fun i =>
    .rows (t.rows.filter (fun r => isinCell (cellAt r i) chromList)))

/-- The `self.vcfdf['REF'].str.len() < 2` test on one cell: `.str.len()` of a
non-string is the missing marker, and `NaN < 2` is `False`. -/
def refLenLt2 (c : Cell) : Bool :=
  match c with
  | .str s => s.toList.length < 2
  | _ => false

/-- Method `VcfFile.getSNPs`. -/
def getSNPs (t : VcfTable) : Except String QueryResult :=
  (colIdx t "REF").map (fun i =>
    .rows (t.rows.filter (fun r => refLenLt2 (cellAt r i))))

/-- Pandas `Series.str.startswith('micro')` on one cell: a non-string yields the
missing marker, and boolean indexing with a mask containing missing values
raises `ValueError`. -/
def microMask (c : Cell) : Except String Bool :=
  match c with
  | .str s => .ok (pyStartswith s "micro")
  | _ => .error "ValueError: cannot mask with array containing NA values"

/-- Method `VcfFile.getMicrosatellites`. -/
def getMicrosatellites (t : VcfTable) : Except String QueryResult := do
  let i ← colIdx t "ID"
  let mask ← t.rows.mapM (fun r => microMask (cellAt r i))
  .ok (.rows (maskFilter t.rows mask))

/-- Pandas `pd.to_numeric` on one cell: a missing marker becomes `NaN` (here
`none`), a numeric string is parsed, anything unparsable raises. -/
def toNumericCell (c : Cell) : Except String (Option Int) :=
  match c with
  | .na => .ok none
  | .int n => .ok (some n)
  | .str s =>
    match parsePyInt s with
    | some n => .ok (some n)
    | none => .error "ValueError: unable to parse string"

/-- The position argument of `getPosition`: a single int, or a Python
sequence of ints (the source checks `len(pos) == 2` for the range form). -/
inductive PosArg
  | single (p : Int)
  | list (ps : List Int)
deriving DecidableEq, Repr

/-- Python `min` over a non-empty list. -/
def pyMin : List Int → Int
  | [] => 0
  | x :: xs => xs.foldl min x

/-- Python `max` over a non-empty list. -/
def pyMax : List Int → Int
  | [] => 0
  | x :: xs => xs.foldl max x

/-- Method `VcfFile.getPosition`: the chromosome filter converts the whole CHROM
column with `pd.to_numeric` (raising on any unparsable cell), then the POS
column of the already-filtered frame is converted and compared — exactly,
or against `min(pos)`/`max(pos)` when `pos` is a two-element sequence. -/
def getPosition (t : VcfTable) (chrom : PyVal) (pos : PosArg) : Except String QueryResult :=
  match chrom with
  | .str _ => .ok (.message "Please enter an int for chromosome as the first argument.")
  | .int c => do
    let ci ← colIdx t "#CHROM"
    let chromNums ← t.rows.mapM (fun r => toNumericCell (cellAt r ci))
    let chromdf := maskFilter t.rows (chromNums.map (fun n => n == some c))
    match pos with
    | .single p => do
      let pj ← colIdx t "POS"
      let posNums ← chromdf.mapM (fun r => toNumericCell (cellAt r pj))
      .ok (.rows (maskFilter chromdf (posNums.map (fun n => n == some p))))
    | .list ps =>
      if ps.length == 2 then do
        let pj ← colIdx t "POS"
        let posNums ← chromdf.mapM (fun r => toNumericCell (cellAt r pj))
        .ok (.rows (maskFilter chromdf (posNums.map (fun n =>
          match n with
          | some v => decide (pyMin ps ≤ v) && decide (v ≤ pyMax ps)
          | none => false))))
      else .ok (.message "Please enter either one location or a list containing a range [start, stop] of locations.")

/-- The class-level static table `VcfFile.common_Info_keys`. -/
def common_Info_keys : List (String × String) :=
  [("AA", "ancestral allele"),
   ("AC", "allele count in genotypes, for each ALT allele, in the same order as listed"),
   ("AD", "Total read depth for each allele"),
   ("ADF", "Read depth for each allele on the forward strand"),
   ("ADR", "Read depth for each allele on the reverse strand"),
   ("AF", "allele frequency for each ALT allele in the same order as listed: use this when estimated from primary data, not called genotypes"),
   ("AN", "total number of alleles in called genotypes"),
   ("BQ", "RMS base quality at this position"),
   ("CIGAR", "cigar string describing how to align an alternate allele to the reference allele"),
   ("DB", "dbSNP membership"),
   ("DP", "combined depth across samples, e.g. DP=154"),
   ("END", "end position of the variant described in this record (esp. for CNVs)"),
   ("H2", "membership in hapmap2"),
   ("H3", "HapMap3 membership"),
   ("MQ", "RMS mapping quality, e.g. MQ=52"),
   ("MQ0", "Number of MAPQ == 0 reads covering this record"),
   ("NS", "Number of samples with data"),
   ("SB", "strand bias at this position"),
   ("SOMATIC", "indicates that the record is a somatic mutation, for cancer genomics"),
   ("VALIDATED", "validated by follow-up experiment"),
   ("1000G", "1000 Genomes membership")]

/-- The class-level static table `VcfFile.common_Format_keys`. -/
def common_Format_keys : List (String × String) :=
  [("AD", "Read depth for each allele"),
   ("ADF", "Read depth for each allele on the forward strand"),
   ("ADR", "Read depth for each allele on the reverse strand"),
   ("DP", "Read depth"),
   ("EC", "Expected alternate allele counts"),
   ("FT", "Filter indicating if this genotype was \x27called\x27"),
   ("GL", "Genotype likelihoods"),
   ("GP", "Genotype posterior probabilities"),
   ("GQ", "Conditional genotype quality"),
   ("GT", "Genotype"),
   ("HQ", "Haplotype quality"),
   ("MQ", "RMS mapping quality"),
   ("PL", "Phred-scaled genotype likelihoods rounded to the closest integer"),
   ("PQ", "Phasing quality"),
   ("PS", "Phase set")]

/-- Method `VcfFile.getKey`: its first statement is `if key in common_Info_key:`,
but no name `common_Info_key` is bound anywhere (the static tables are the
class attributes `common_Info_keys` / `common_Format_keys`, reachable only
as `VcfFile.common_Info_keys` inside a method), so CPython raises
`NameError` before any lookup is attempted, for every key. -/
def getKey (key : String) : Except String String :=
  .error "NameError: name common_Info_key is not defined"

/-! ### Which branch of the meta-line if/elif chain a line takes -/

/-- The line takes the `fileformat` branch. -/
def isFileformatLine (s : String) : Bool := pyStartswith s "fileformat"

/-- The line takes the `fileDate` branch (it failed the earlier test). -/
def isFileDateLine (s : String) : Bool :=
  !pyStartswith s "fileformat" && pyStartswith s "fileDate"

/-- The line takes the `source` branch. -/
def isSourceLine (s : String) : Bool :=
  !pyStartswith s "fileformat" && !pyStartswith s "fileDate" && pyStartswith s "source"

/-- The line takes the `contig` branch. -/
def isContigLine (s : String) : Bool :=
  !pyStartswith s "fileformat" && !pyStartswith s "fileDate" &&
  !pyStartswith s "source" && pyStartswith s "contig"

/-- The line takes the `reference` branch. -/
def isReferenceLine (s : String) : Bool :=
  !pyStartswith s "fileformat" && !pyStartswith s "fileDate" &&
  !pyStartswith s "source" && !pyStartswith s "contig" && pyStartswith s "reference"

/-- The line takes the `phasing` branch. -/
def isPhasingLine (s : String) : Bool :=
  !pyStartswith s "fileformat" && !pyStartswith s "fileDate" &&
  !pyStartswith s "source" && !pyStartswith s "contig" &&
  !pyStartswith s "reference" && pyStartswith s "phasing"

/-- A fold over `Except` whose step rewrites one component on every
successful iteration computes, on success, the fold of the plain rewrite. -/
theorem foldlM_lastUpdate {S α : Type} (step : S → String → Except String S)
    (acc : S → α) (p : String → Bool) (v : String → α)
    (hstep : ∀ s it s', step s it = .ok s' → acc s' = if p it then v it else acc s) :
    ∀ (items : List String) (s h : S), List.foldlM step s items = .ok h →
      acc h = List.foldl (fun a it => if p it then v it else a) (acc s) items := by
  intro items
  induction items with
  | nil =>
    intro s h hh
    rw [List.foldlM_nil] at hh
    simp only [pure, Except.pure, Except.ok.injEq] at hh
    subst hh; simp
  | cons it rest ih =>
    intro s h hh
    rw [List.foldlM_cons] at hh
    cases hs : step s it with
    | error e => rw [hs] at hh; simp [Bind.bind, Except.bind] at hh
    | ok s' =>
      rw [hs] at hh
      simp only [Bind.bind, Except.bind] at hh
      have := ih s' h hh
      rw [List.foldl_cons, ← hstep s it s' hs]
      exact this

/-- Folding conditional overwrites leaves the value of the last matching
element (or the start value when none matches): assignment in a loop is
last-occurrence-wins. -/
theorem foldl_update_eq_getLast {α : Type} (p : String → Bool) (v : String → α)
    (items : List String) (a : α) :
    List.foldl (fun a it => if p it then v it else a) a items
      = (((items.filter p).getLast?).map v).getD a := by
  induction items using List.reverseRecOn with
  | nil => simp
  | append_singleton l it ih =>
    rw [List.foldl_append, List.foldl_cons, List.foldl_nil, List.filter_append]
    by_cases hp : p it
    · simp only [hp, if_true, List.filter_cons_of_pos hp, List.filter_nil,
        List.getLast?_concat]
      rfl
    · simp only [hp, if_false, List.filter_cons_of_neg hp, List.filter_nil,
        List.append_nil]
      exact ih

/-! ### What one meta-line iteration does to each attribute -/

theorem contigTail_fileformat (st : HeaderState) (it : String) :
    (contigTail st it).fileformat = st.fileformat := by
  simp only [contigTail]; split_ifs <;> rfl

theorem contigTail_fileDate (st : HeaderState) (it : String) :
    (contigTail st it).fileDate = st.fileDate := by
  simp only [contigTail]; split_ifs <;> rfl

theorem contigTail_source (st : HeaderState) (it : String) :
    (contigTail st it).source = st.source := by
  simp only [contigTail]; split_ifs <;> rfl

theorem contigTail_reference (st : HeaderState) (it : String) :
    (contigTail st it).reference = st.reference := by
  simp only [contigTail]; split_ifs <;> rfl

theorem contigTail_phasing (st : HeaderState) (it : String) :
    (contigTail st it).phasing = st.phasing := by
  simp only [contigTail]; split_ifs <;> rfl

theorem contigTail_contig (st : HeaderState) (it : String) :
    (contigTail st it).contig = st.contig := by
  simp only [contigTail]; split_ifs <;> rfl

theorem contigTail_contigSpecies (st : HeaderState) (it : String) :
    (contigTail st it).contigSpecies = st.contigSpecies := by
  simp only [contigTail]; split_ifs <;> rfl

theorem contigTail_contigLength (st : HeaderState) (it : String) :
    (contigTail st it).contigLength = st.contigLength := by
  simp only [contigTail]; split_ifs <;> rfl

theorem contigTail_contigAssembly (st : HeaderState) (it : String) :
    (contigTail st it).contigAssembly =
      if pyIn "assembly" it then some (attrPart it "assembly=") else st.contigAssembly := by
  simp only [contigTail]; split_ifs <;> rfl

theorem contigTail_contigTaxonomy (st : HeaderState) (it : String) :
    (contigTail st it).contigTaxonomy =
      if pyIn "taxonomy" it then some (attrPart it "taxonomy=") else st.contigTaxonomy := by
  simp only [contigTail]; split_ifs <;> rfl
theorem processContig_fileformat (st : HeaderState) (it : String) (st' : HeaderState)
    (h : processContig st it = .ok st') :
    st'.fileformat = st.fileformat := by
  simp only [processContig] at h
  split_ifs at h <;>
  first
    | (split at h <;>
        first
          | (simp only [Except.ok.injEq] at h; subst h;
             simp [contigTail_fileformat, contigTail_fileDate, contigTail_source,
                   contigTail_reference, contigTail_phasing, contigTail_contig,
                   contigTail_contigSpecies, contigTail_contigLength,
                   contigTail_contigAssembly, contigTail_contigTaxonomy, *])
          | simp_all)
    | (injection h with h; subst h;
       simp [contigTail_fileformat, contigTail_fileDate, contigTail_source,
                   contigTail_reference, contigTail_phasing, contigTail_contig,
                   contigTail_contigSpecies, contigTail_contigLength,
                   contigTail_contigAssembly, contigTail_contigTaxonomy, *])

theorem processContig_fileDate (st : HeaderState) (it : String) (st' : HeaderState)
    (h : processContig st it = .ok st') :
    st'.fileDate = st.fileDate := by
  simp only [processContig] at h
  split_ifs at h <;>
  first
    | (split at h <;>
        first
          | (simp only [Except.ok.injEq] at h; subst h;
             simp [contigTail_fileformat, contigTail_fileDate, contigTail_source,
                   contigTail_reference, contigTail_phasing, contigTail_contig,
                   contigTail_contigSpecies, contigTail_contigLength,
                   contigTail_contigAssembly, contigTail_contigTaxonomy, *])
          | simp_all)
    | (injection h with h; subst h;
       simp [contigTail_fileformat, contigTail_fileDate, contigTail_source,
                   contigTail_reference, contigTail_phasing, contigTail_contig,
                   contigTail_contigSpecies, contigTail_contigLength,
                   contigTail_contigAssembly, contigTail_contigTaxonomy, *])

theorem processContig_source (st : HeaderState) (it : String) (st' : HeaderState)
    (h : processContig st it = .ok st') :
    st'.source = st.source := by
  simp only [processContig] at h
  split_ifs at h <;>
  first
    | (split at h <;>
        first
          | (simp only [Except.ok.injEq] at h; subst h;
             simp [contigTail_fileformat, contigTail_fileDate, contigTail_source,
                   contigTail_reference, contigTail_phasing, contigTail_contig,
                   contigTail_contigSpecies, contigTail_contigLength,
                   contigTail_contigAssembly, contigTail_contigTaxonomy, *])
          | simp_all)
    | (injection h with h; subst h;
       simp [contigTail_fileformat, contigTail_fileDate, contigTail_source,
                   contigTail_reference, contigTail_phasing, contigTail_contig,
                   contigTail_contigSpecies, contigTail_contigLength,
                   contigTail_contigAssembly, contigTail_contigTaxonomy, *])

theorem processContig_reference (st : HeaderState) (it : String) (st' : HeaderState)
    (h : processContig st it = .ok st') :
    st'.reference = st.reference := by
  simp only [processContig] at h
  split_ifs at h <;>
  first
    | (split at h <;>
        first
          | (simp only [Except.ok.injEq] at h; subst h;
             simp [contigTail_fileformat, contigTail_fileDate, contigTail_source,
                   contigTail_reference, contigTail_phasing, contigTail_contig,
                   contigTail_contigSpecies, contigTail_contigLength,
                   contigTail_contigAssembly, contigTail_contigTaxonomy, *])
          | simp_all)
    | (injection h with h; subst h;
       simp [contigTail_fileformat, contigTail_fileDate, contigTail_source,
                   contigTail_reference, contigTail_phasing, contigTail_contig,
                   contigTail_contigSpecies, contigTail_contigLength,
                   contigTail_contigAssembly, contigTail_contigTaxonomy, *])

theorem processContig_phasing (st : HeaderState) (it : String) (st' : HeaderState)
    (h : processContig st it = .ok st') :
    st'.phasing = st.phasing := by
  simp only [processContig] at h
  split_ifs at h <;>
  first
    | (split at h <;>
        first
          | (simp only [Except.ok.injEq] at h; subst h;
             simp [contigTail_fileformat, contigTail_fileDate, contigTail_source,
                   contigTail_reference, contigTail_phasing, contigTail_contig,
                   contigTail_contigSpecies, contigTail_contigLength,
                   contigTail_contigAssembly, contigTail_contigTaxonomy, *])
          | simp_all)
    | (injection h with h; subst h;
       simp [contigTail_fileformat, contigTail_fileDate, contigTail_source,
                   contigTail_reference, contigTail_phasing, contigTail_contig,
                   contigTail_contigSpecies, contigTail_contigLength,
                   contigTail_contigAssembly, contigTail_contigTaxonomy, *])

theorem processContig_contig (st : HeaderState) (it : String) (st' : HeaderState)
    (h : processContig st it = .ok st') :
    st'.contig = some (lastPartAfter it "contig=") := by
  simp only [processContig] at h
  split_ifs at h <;>
  first
    | (split at h <;>
        first
          | (simp only [Except.ok.injEq] at h; subst h;
             simp [contigTail_fileformat, contigTail_fileDate, contigTail_source,
                   contigTail_reference, contigTail_phasing, contigTail_contig,
                   contigTail_contigSpecies, contigTail_contigLength,
                   contigTail_contigAssembly, contigTail_contigTaxonomy, *])
          | simp_all)
    | (injection h with h; subst h;
       simp [contigTail_fileformat, contigTail_fileDate, contigTail_source,
                   contigTail_reference, contigTail_phasing, contigTail_contig,
                   contigTail_contigSpecies, contigTail_contigLength,
                   contigTail_contigAssembly, contigTail_contigTaxonomy, *])

theorem processContig_contigSpecies (st : HeaderState) (it : String) (st' : HeaderState)
    (h : processContig st it = .ok st') :
    st'.contigSpecies = if pyIn "species" it then some (attrPart it "species=") else st.contigSpecies := by
  simp only [processContig] at h
  split_ifs at h <;>
  first
    | (split at h <;>
        first
          | (simp only [Except.ok.injEq] at h; subst h;
             simp [contigTail_fileformat, contigTail_fileDate, contigTail_source,
                   contigTail_reference, contigTail_phasing, contigTail_contig,
                   contigTail_contigSpecies, contigTail_contigLength,
                   contigTail_contigAssembly, contigTail_contigTaxonomy, *])
          | simp_all)
    | (injection h with h; subst h;
       simp [contigTail_fileformat, contigTail_fileDate, contigTail_source,
                   contigTail_reference, contigTail_phasing, contigTail_contig,
                   contigTail_contigSpecies, contigTail_contigLength,
                   contigTail_contigAssembly, contigTail_contigTaxonomy, *])

theorem processContig_contigLength (st : HeaderState) (it : String) (st' : HeaderState)
    (h : processContig st it = .ok st') :
    st'.contigLength = if pyIn "length" it then parsePyInt (attrPart it "length=") else st.contigLength := by
  simp only [processContig] at h
  split_ifs at h <;>
  first
    | (split at h <;>
        first
          | (simp only [Except.ok.injEq] at h; subst h;
             simp [contigTail_fileformat, contigTail_fileDate, contigTail_source,
                   contigTail_reference, contigTail_phasing, contigTail_contig,
                   contigTail_contigSpecies, contigTail_contigLength,
                   contigTail_contigAssembly, contigTail_contigTaxonomy, *])
          | simp_all)
    | (injection h with h; subst h;
       simp [contigTail_fileformat, contigTail_fileDate, contigTail_source,
                   contigTail_reference, contigTail_phasing, contigTail_contig,
                   contigTail_contigSpecies, contigTail_contigLength,
                   contigTail_contigAssembly, contigTail_contigTaxonomy, *])

theorem processContig_contigAssembly (st : HeaderState) (it : String) (st' : HeaderState)
    (h : processContig st it = .ok st') :
    st'.contigAssembly = if pyIn "assembly" it then some (attrPart it "assembly=") else st.contigAssembly := by
  simp only [processContig] at h
  split_ifs at h <;>
  first
    | (split at h <;>
        first
          | (simp only [Except.ok.injEq] at h; subst h;
             simp [contigTail_fileformat, contigTail_fileDate, contigTail_source,
                   contigTail_reference, contigTail_phasing, contigTail_contig,
                   contigTail_contigSpecies, contigTail_contigLength,
                   contigTail_contigAssembly, contigTail_contigTaxonomy, *])
          | simp_all)
    | (injection h with h; subst h;
       simp [contigTail_fileformat, contigTail_fileDate, contigTail_source,
                   contigTail_reference, contigTail_phasing, contigTail_contig,
                   contigTail_contigSpecies, contigTail_contigLength,
                   contigTail_contigAssembly, contigTail_contigTaxonomy, *])

theorem processContig_contigTaxonomy (st : HeaderState) (it : String) (st' : HeaderState)
    (h : processContig st it = .ok st') :
    st'.contigTaxonomy = if pyIn "taxonomy" it then some (attrPart it "taxonomy=") else st.contigTaxonomy := by
  simp only [processContig] at h
  split_ifs at h <;>
  first
    | (split at h <;>
        first
          | (simp only [Except.ok.injEq] at h; subst h;
             simp [contigTail_fileformat, contigTail_fileDate, contigTail_source,
                   contigTail_reference, contigTail_phasing, contigTail_contig,
                   contigTail_contigSpecies, contigTail_contigLength,
                   contigTail_contigAssembly, contigTail_contigTaxonomy, *])
          | simp_all)
    | (injection h with h; subst h;
       simp [contigTail_fileformat, contigTail_fileDate, contigTail_source,
                   contigTail_reference, contigTail_phasing, contigTail_contig,
                   contigTail_contigSpecies, contigTail_contigLength,
                   contigTail_contigAssembly, contigTail_contigTaxonomy, *])

theorem processItem_fileformat (s : HeaderState) (it : String) (s' : HeaderState)
    (h : processItem s it = .ok s') :
    s'.fileformat = if isFileformatLine it then some (scalarVal it) else s.fileformat := by
  simp only [processItem] at h
  split_ifs at h <;>
  first
    | (injection h with h; subst h; simp_all [isFileformatLine, isFileDateLine, isSourceLine, isContigLine, isReferenceLine, isPhasingLine])
    | (rw [processContig_fileformat _ _ _ h]; simp_all [isFileformatLine, isFileDateLine, isSourceLine, isContigLine, isReferenceLine, isPhasingLine])

theorem processItem_fileDate (s : HeaderState) (it : String) (s' : HeaderState)
    (h : processItem s it = .ok s') :
    s'.fileDate = if isFileDateLine it then some (scalarVal it) else s.fileDate := by
  simp only [processItem] at h
  split_ifs at h <;>
  first
    | (injection h with h; subst h; simp_all [isFileformatLine, isFileDateLine, isSourceLine, isContigLine, isReferenceLine, isPhasingLine])
    | (rw [processContig_fileDate _ _ _ h]; simp_all [isFileformatLine, isFileDateLine, isSourceLine, isContigLine, isReferenceLine, isPhasingLine])

theorem processItem_source (s : HeaderState) (it : String) (s' : HeaderState)
    (h : processItem s it = .ok s') :
    s'.source = if isSourceLine it then some (scalarVal it) else s.source := by
  simp only [processItem] at h
  split_ifs at h <;>
  first
    | (injection h with h; subst h; simp_all [isFileformatLine, isFileDateLine, isSourceLine, isContigLine, isReferenceLine, isPhasingLine])
    | (rw [processContig_source _ _ _ h]; simp_all [isFileformatLine, isFileDateLine, isSourceLine, isContigLine, isReferenceLine, isPhasingLine])

theorem processItem_reference (s : HeaderState) (it : String) (s' : HeaderState)
    (h : processItem s it = .ok s') :
    s'.reference = if isReferenceLine it then some (scalarVal it) else s.reference := by
  simp only [processItem] at h
  split_ifs at h <;>
  first
    | (injection h with h; subst h; simp_all [isFileformatLine, isFileDateLine, isSourceLine, isContigLine, isReferenceLine, isPhasingLine])
    | (rw [processContig_reference _ _ _ h]; simp_all [isFileformatLine, isFileDateLine, isSourceLine, isContigLine, isReferenceLine, isPhasingLine])

theorem processItem_phasing (s : HeaderState) (it : String) (s' : HeaderState)
    (h : processItem s it = .ok s') :
    s'.phasing = if isPhasingLine it then some (scalarVal it) else s.phasing := by
  simp only [processItem] at h
  split_ifs at h <;>
  first
    | (injection h with h; subst h; simp_all [isFileformatLine, isFileDateLine, isSourceLine, isContigLine, isReferenceLine, isPhasingLine])
    | (rw [processContig_phasing _ _ _ h]; simp_all [isFileformatLine, isFileDateLine, isSourceLine, isContigLine, isReferenceLine, isPhasingLine])

theorem processItem_contig (s : HeaderState) (it : String) (s' : HeaderState)
    (h : processItem s it = .ok s') :
    s'.contig = if isContigLine it then some (lastPartAfter it "contig=") else s.contig := by
  simp only [processItem] at h
  split_ifs at h <;>
  first
    | (injection h with h; subst h; simp_all [isFileformatLine, isFileDateLine, isSourceLine, isContigLine, isReferenceLine, isPhasingLine])
    | (rw [processContig_contig _ _ _ h]; simp_all [isFileformatLine, isFileDateLine, isSourceLine, isContigLine, isReferenceLine, isPhasingLine])

theorem processItem_contigSpecies (s : HeaderState) (it : String) (s' : HeaderState)
    (h : processItem s it = .ok s') :
    s'.contigSpecies = if isContigLine it && pyIn "species" it then some (attrPart it "species=") else s.contigSpecies := by
  simp only [processItem] at h
  split_ifs at h <;>
  first
    | (injection h with h; subst h; simp_all [isFileformatLine, isFileDateLine, isSourceLine, isContigLine, isReferenceLine, isPhasingLine])
    | (rw [processContig_contigSpecies _ _ _ h]; simp_all [isFileformatLine, isFileDateLine, isSourceLine, isContigLine, isReferenceLine, isPhasingLine])

theorem processItem_contigLength (s : HeaderState) (it : String) (s' : HeaderState)
    (h : processItem s it = .ok s') :
    s'.contigLength = if isContigLine it && pyIn "length" it then parsePyInt (attrPart it "length=") else s.contigLength := by
  simp only [processItem] at h
  split_ifs at h <;>
  first
    | (injection h with h; subst h; simp_all [isFileformatLine, isFileDateLine, isSourceLine, isContigLine, isReferenceLine, isPhasingLine])
    | (rw [processContig_contigLength _ _ _ h]; simp_all [isFileformatLine, isFileDateLine, isSourceLine, isContigLine, isReferenceLine, isPhasingLine])

theorem processItem_contigAssembly (s : HeaderState) (it : String) (s' : HeaderState)
    (h : processItem s it = .ok s') :
    s'.contigAssembly = if isContigLine it && pyIn "assembly" it then some (attrPart it "assembly=") else s.contigAssembly := by
  simp only [processItem] at h
  split_ifs at h <;>
  first
    | (injection h with h; subst h; simp_all [isFileformatLine, isFileDateLine, isSourceLine, isContigLine, isReferenceLine, isPhasingLine])
    | (rw [processContig_contigAssembly _ _ _ h]; simp_all [isFileformatLine, isFileDateLine, isSourceLine, isContigLine, isReferenceLine, isPhasingLine])

theorem processItem_contigTaxonomy (s : HeaderState) (it : String) (s' : HeaderState)
    (h : processItem s it = .ok s') :
    s'.contigTaxonomy = if isContigLine it && pyIn "taxonomy" it then some (attrPart it "taxonomy=") else s.contigTaxonomy := by
  simp only [processItem] at h
  split_ifs at h <;>
  first
    | (injection h with h; subst h; simp_all [isFileformatLine, isFileDateLine, isSourceLine, isContigLine, isReferenceLine, isPhasingLine])
    | (rw [processContig_contigTaxonomy _ _ _ h]; simp_all [isFileformatLine, isFileDateLine, isSourceLine, isContigLine, isReferenceLine, isPhasingLine])

theorem processMeta_fileformat (items : List String) (h : HeaderState)
    (hok : processMeta items = .ok h) :
    h.fileformat = (((items.filter (fun it => isFileformatLine it)).getLast?).map (fun it => some (scalarVal it))).getD none := by
  have hfold : h.fileformat = List.foldl (fun a it => if isFileformatLine it then some (scalarVal it) else a) none items :=
    foldlM_lastUpdate processItem (fun s => s.fileformat) (fun it => isFileformatLine it) (fun it => some (scalarVal it))
      (processItem_fileformat) items emptyHeader h hok
  rw [hfold]
  exact foldl_update_eq_getLast (fun it => isFileformatLine it) (fun it => some (scalarVal it)) items none

theorem processMeta_fileDate (items : List String) (h : HeaderState)
    (hok : processMeta items = .ok h) :
    h.fileDate = (((items.filter (fun it => isFileDateLine it)).getLast?).map (fun it => some (scalarVal it))).getD none := by
  have hfold : h.fileDate = List.foldl (fun a it => if isFileDateLine it then some (scalarVal it) else a) none items :=
    foldlM_lastUpdate processItem (fun s => s.fileDate) (fun it => isFileDateLine it) (fun it => some (scalarVal it))
      (processItem_fileDate) items emptyHeader h hok
  rw [hfold]
  exact foldl_update_eq_getLast (fun it => isFileDateLine it) (fun it => some (scalarVal it)) items none

theorem processMeta_source (items : List String) (h : HeaderState)
    (hok : processMeta items = .ok h) :
    h.source = (((items.filter (fun it => isSourceLine it)).getLast?).map (fun it => some (scalarVal it))).getD none := by
  have hfold : h.source = List.foldl (fun a it => if isSourceLine it then some (scalarVal it) else a) none items :=
    foldlM_lastUpdate processItem (fun s => s.source) (fun it => isSourceLine it) (fun it => some (scalarVal it))
      (processItem_source) items emptyHeader h hok
  rw [hfold]
  exact foldl_update_eq_getLast (fun it => isSourceLine it) (fun it => some (scalarVal it)) items none

theorem processMeta_reference (items : List String) (h : HeaderState)
    (hok : processMeta items = .ok h) :
    h.reference = (((items.filter (fun it => isReferenceLine it)).getLast?).map (fun it => some (scalarVal it))).getD none := by
  have hfold : h.reference = List.foldl (fun a it => if isReferenceLine it then some (scalarVal it) else a) none items :=
    foldlM_lastUpdate processItem (fun s => s.reference) (fun it => isReferenceLine it) (fun it => some (scalarVal it))
      (processItem_reference) items emptyHeader h hok
  rw [hfold]
  exact foldl_update_eq_getLast (fun it => isReferenceLine it) (fun it => some (scalarVal it)) items none

theorem processMeta_phasing (items : List String) (h : HeaderState)
    (hok : processMeta items = .ok h) :
    h.phasing = (((items.filter (fun it => isPhasingLine it)).getLast?).map (fun it => some (scalarVal it))).getD none := by
  have hfold : h.phasing = List.foldl (fun a it => if isPhasingLine it then some (scalarVal it) else a) none items :=
    foldlM_lastUpdate processItem (fun s => s.phasing) (fun it => isPhasingLine it) (fun it => some (scalarVal it))
      (processItem_phasing) items emptyHeader h hok
  rw [hfold]
  exact foldl_update_eq_getLast (fun it => isPhasingLine it) (fun it => some (scalarVal it)) items none

theorem processMeta_contig (items : List String) (h : HeaderState)
    (hok : processMeta items = .ok h) :
    h.contig = (((items.filter (fun it => isContigLine it)).getLast?).map (fun it => some (lastPartAfter it "contig="))).getD none := by
  have hfold : h.contig = List.foldl (fun a it => if isContigLine it then some (lastPartAfter it "contig=") else a) none items :=
    foldlM_lastUpdate processItem (fun s => s.contig) (fun it => isContigLine it) (fun it => some (lastPartAfter it "contig="))
      (processItem_contig) items emptyHeader h hok
  rw [hfold]
  exact foldl_update_eq_getLast (fun it => isContigLine it) (fun it => some (lastPartAfter it "contig=")) items none

theorem processMeta_contigSpecies (items : List String) (h : HeaderState)
    (hok : processMeta items = .ok h) :
    h.contigSpecies = (((items.filter (fun it => isContigLine it && pyIn "species" it)).getLast?).map (fun it => some (attrPart it "species="))).getD none := by
  have hfold : h.contigSpecies = List.foldl (fun a it => if isContigLine it && pyIn "species" it then some (attrPart it "species=") else a) none items :=
    foldlM_lastUpdate processItem (fun s => s.contigSpecies) (fun it => isContigLine it && pyIn "species" it) (fun it => some (attrPart it "species="))
      (processItem_contigSpecies) items emptyHeader h hok
  rw [hfold]
  exact foldl_update_eq_getLast (fun it => isContigLine it && pyIn "species" it) (fun it => some (attrPart it "species=")) items none

theorem processMeta_contigLength (items : List String) (h : HeaderState)
    (hok : processMeta items = .ok h) :
    h.contigLength = (((items.filter (fun it => isContigLine it && pyIn "length" it)).getLast?).map (fun it => parsePyInt (attrPart it "length="))).getD none := by
  have hfold : h.contigLength = List.foldl (fun a it => if isContigLine it && pyIn "length" it then parsePyInt (attrPart it "length=") else a) none items :=
    foldlM_lastUpdate processItem (fun s => s.contigLength) (fun it => isContigLine it && pyIn "length" it) (fun it => parsePyInt (attrPart it "length="))
      (processItem_contigLength) items emptyHeader h hok
  rw [hfold]
  exact foldl_update_eq_getLast (fun it => isContigLine it && pyIn "length" it) (fun it => parsePyInt (attrPart it "length=")) items none

theorem processMeta_contigAssembly (items : List String) (h : HeaderState)
    (hok : processMeta items = .ok h) :
    h.contigAssembly = (((items.filter (fun it => isContigLine it && pyIn "assembly" it)).getLast?).map (fun it => some (attrPart it "assembly="))).getD none := by
  have hfold : h.contigAssembly = List.foldl (fun a it => if isContigLine it && pyIn "assembly" it then some (attrPart it "assembly=") else a) none items :=
    foldlM_lastUpdate processItem (fun s => s.contigAssembly) (fun it => isContigLine it && pyIn "assembly" it) (fun it => some (attrPart it "assembly="))
      (processItem_contigAssembly) items emptyHeader h hok
  rw [hfold]
  exact foldl_update_eq_getLast (fun it => isContigLine it && pyIn "assembly" it) (fun it => some (attrPart it "assembly=")) items none

theorem processMeta_contigTaxonomy (items : List String) (h : HeaderState)
    (hok : processMeta items = .ok h) :
    h.contigTaxonomy = (((items.filter (fun it => isContigLine it && pyIn "taxonomy" it)).getLast?).map (fun it => some (attrPart it "taxonomy="))).getD none := by
  have hfold : h.contigTaxonomy = List.foldl (fun a it => if isContigLine it && pyIn "taxonomy" it then some (attrPart it "taxonomy=") else a) none items :=
    foldlM_lastUpdate processItem (fun s => s.contigTaxonomy) (fun it => isContigLine it && pyIn "taxonomy" it) (fun it => some (attrPart it "taxonomy="))
      (processItem_contigTaxonomy) items emptyHeader h hok
  rw [hfold]
  exact foldl_update_eq_getLast (fun it => isContigLine it && pyIn "taxonomy" it) (fun it => some (attrPart it "taxonomy=")) items none

/-! ### Helper lemmas about the splitting and masking primitives -/

theorem splitGo_ne_nil (sep : List Char) :
    ∀ (fuel : Nat) (cs acc : List Char), splitGo sep fuel cs acc ≠ [] := by
  intro fuel
  induction fuel with
  | zero => intro cs acc; cases cs <;> simp [splitGo]
  | succ n ih =>
    intro cs acc
    cases cs with
    | nil => simp [splitGo]
    | cons c cs' =>
      simp only [splitGo]
      split
      · simp
      · exact ih cs' (c :: acc)

theorem pySplit_ne_nil (s sep : String) : pySplit s sep ≠ [] := by
  unfold pySplit
  intro hcon
  exact splitGo_ne_nil sep.toList s.toList.length s.toList [] (List.map_eq_nil_iff.mp hcon)

theorem padRow_not_int (w : Nat) (fs : List String) :
    ∀ c ∈ padRow w fs, c.isIntCell = false := by
  intro c hc
  simp only [padRow, List.mem_append, List.mem_map, List.mem_replicate] at hc
  rcases hc with ⟨s, _, rfl⟩ | ⟨_, rfl⟩ <;> rfl

theorem maskFilter_sublist {α : Type} (xs : List α) (mask : List Bool) :
    (maskFilter xs mask).Sublist xs := by
  induction xs generalizing mask with
  | nil => simp [maskFilter]
  | cons x xs ih =>
    cases mask with
    | nil => simp [maskFilter]
    | cons b bs =>
      simp only [maskFilter, List.zip_cons_cons, List.filter_cons]
      cases b with
      | true => simpa [maskFilter] using (ih bs).cons₂ x
      | false => simpa [maskFilter] using (ih bs).cons x

theorem maskFilter_map {α : Type} (l : List α) (p : α → Bool) :
    maskFilter l (l.map p) = l.filter p := by
  induction l with
  | nil => rfl
  | cons x xs ih =>
    simp only [List.map_cons, maskFilter, List.zip_cons_cons, List.filter_cons]
    cases hp : p x with
    | true => simpa [maskFilter, hp] using ih
    | false => simpa [maskFilter, hp] using ih

theorem mapM_ok_of_forall {α β : Type} (f : α → Except String β) (g : α → β) :
    ∀ (l : List α), (∀ x ∈ l, f x = .ok (g x)) → l.mapM f = .ok (l.map g) := by
  intro l
  induction l with
  | nil => intro _; simp [List.mapM_nil]; rfl
  | cons x xs ih =>
    intro hf
    rw [List.mapM_cons, hf x (by simp)]
    rw [ih (fun y hy => hf y (by simp [hy]))]
    simp [Bind.bind, Except.bind, pure, Except.pure]

theorem length_filter_add_length_filter_not {α : Type} (p : α → Bool) (l : List α) :
    (l.filter p).length + (l.filter (fun a => !p a)).length = l.length := by
  induction l with
  | nil => rfl
  | cons x xs ih =>
    simp only [List.filter_cons]
    cases hp : p x <;> simp [List.length_cons, ← ih] <;> omega

/-! ### Shape of a successfully built table -/

/-- Remove the trailing missing-value padding of a row, recovering the
split fields. -/
def stripNa (r : List Cell) : List Cell :=
  (r.reverse.dropWhile Cell.isNa).reverse

theorem stripNa_padRow (w : Nat) (fs : List String) (hfs : fs ≠ []) :
    stripNa (padRow w fs) = fs.map Cell.str := by
  unfold stripNa padRow
  rw [List.reverse_append, List.reverse_replicate]
  have hrep : ∀ k : Nat, List.dropWhile Cell.isNa
      (List.replicate k Cell.na ++ (fs.map Cell.str).reverse)
      = List.dropWhile Cell.isNa ((fs.map Cell.str).reverse) := by
    intro k
    induction k with
    | zero => rfl
    | succ n ih => simpa [List.replicate_succ, List.dropWhile_cons] using ih
  rw [hrep]
  cases hrev : (fs.map Cell.str).reverse with
  | nil =>
    exact absurd (List.map_eq_nil_iff.mp (List.reverse_eq_nil_iff.mp hrev)) hfs
  | cons c cs =>
    have hc : c ∈ fs.map Cell.str := by
      have : c ∈ (fs.map Cell.str).reverse := by rw [hrev]; simp
      simpa using this
    obtain ⟨s, _, rfl⟩ := List.mem_map.mp hc
    have hdw : List.dropWhile Cell.isNa (Cell.str s :: cs) = Cell.str s :: cs := by
      rw [List.dropWhile_cons]; simp [Cell.isNa]
    rw [hdw, ← hrev, List.reverse_reverse]

theorem buildTable_shape (lines : List String) (t : VcfTable)
    (h : buildTable lines = .ok t) :
    ∃ hd ds w, tabLines lines = hd :: ds ∧
      t.rows = ds.map (fun d => padRow w (pySplit d "\t")) := by
  unfold buildTable at h
  cases htl : tabLines lines with
  | nil => rw [htl] at h; simp at h
  | cons hd ds =>
    rw [htl] at h
    simp only at h
    unfold buildTableRows at h
    split at h
    case h_1 lastName heq =>
      refine ⟨hd, ds, frameWidth hd ds, rfl, ?_⟩
      injection h with h
      subst h
      rfl
    case h_2 => simp at h

/-- Every cell of every row of a successfully loaded table is raw text or
the padding marker — never an integer. -/
theorem loadVcf_cells_not_int (lines : List String) (f : VcfFile)
    (h : loadVcf lines = .ok f) :
    ∀ r ∈ f.table.rows, ∀ c ∈ r, c.isIntCell = false := by
  unfold loadVcf at h
  cases hm : processMeta (metaItems lines) with
  | error e => rw [hm] at h; simp [Bind.bind, Except.bind] at h
  | ok hh =>
    rw [hm] at h
    simp only [Bind.bind, Except.bind] at h
    cases hb : buildTable lines with
    | error e => rw [hb] at h; simp at h
    | ok t =>
      rw [hb] at h
      simp only [Except.ok.injEq] at h
      subst h
      obtain ⟨hd, ds, w, _, hrows⟩ := buildTable_shape lines t hb
      intro r hr c hc
      rw [hrows] at hr
      obtain ⟨d, _, rfl⟩ := List.mem_map.mp hr
      exact padRow_not_int w (pySplit d "\t") c hc

/-- Every row of a loaded table is, up to the trailing padding, exactly the
tab-split fields of one non-meta input line. -/
theorem loadVcf_row_provenance (lines : List String) (f : VcfFile) (r : List Cell)
    (h : loadVcf lines = .ok f) (hr : r ∈ f.table.rows) :
    ∃ line, line ∈ lines ∧ (!pyStartswith line "##") = true ∧
      stripNa r = (pySplit line "\t").map Cell.str := by
  unfold loadVcf at h
  cases hm : processMeta (metaItems lines) with
  | error e => rw [hm] at h; simp [Bind.bind, Except.bind] at h
  | ok hh =>
    rw [hm] at h
    simp only [Bind.bind, Except.bind] at h
    cases hb : buildTable lines with
    | error e => rw [hb] at h; simp at h
    | ok t =>
      rw [hb] at h
      simp only [Except.ok.injEq] at h
      subst h
      obtain ⟨hd, ds, w, htl, hrows⟩ := buildTable_shape lines t hb
      rw [hrows] at hr
      obtain ⟨d, hd2, rfl⟩ := List.mem_map.mp hr
      have hdin : d ∈ tabLines lines := by rw [htl]; simp [hd2]
      unfold tabLines at hdin
      obtain ⟨hdl, hdns⟩ := List.mem_filter.mp hdin
      exact ⟨d, hdl, hdns, stripNa_padRow w (pySplit d "\t") (pySplit_ne_nil d "\t")⟩

/-! ### Lemmas about the frame width (`foldl Nat.max`) and the padded header -/

theorem le_foldl_max (l : List Nat) (a : Nat) : a ≤ l.foldl Nat.max a := by
  induction l generalizing a with
  | nil => simp
  | cons x xs ih =>
    rw [List.foldl_cons]
    exact le_trans (Nat.le_max_left a x) (ih (Nat.max a x))

theorem mem_le_foldl_max (l : List Nat) (a : Nat) : ∀ x ∈ l, x ≤ l.foldl Nat.max a := by
  induction l generalizing a with
  | nil => simp
  | cons y ys ih =>
    intro x hx
    rw [List.foldl_cons]
    rcases List.mem_cons.mp hx with rfl | hx2
    · exact le_trans (Nat.le_max_right a x) (le_foldl_max ys (Nat.max a x))
    · exact ih (Nat.max a y) x hx2

theorem foldl_max_le (l : List Nat) (a b : Nat) (ha : a ≤ b) (hl : ∀ x ∈ l, x ≤ b) :
    l.foldl Nat.max a ≤ b := by
  induction l generalizing a with
  | nil => simpa
  | cons x xs ih =>
    rw [List.foldl_cons]
    exact ih (Nat.max a x) (Nat.max_le.mpr ⟨ha, hl x (by simp)⟩)
      (fun y hy => hl y (by simp [hy]))

theorem padRow_getLast_of_le (w : Nat) (fs : List String) (h : w ≤ fs.length) :
    (padRow w fs).getLast? = (fs.getLast?).map Cell.str := by
  unfold padRow
  rw [Nat.sub_eq_zero_of_le h]
  simp [List.getLast?_map]

theorem padRow_getLast_of_gt (w : Nat) (fs : List String) (h : fs.length < w) :
    (padRow w fs).getLast? = some Cell.na := by
  unfold padRow
  obtain ⟨k, hk⟩ : ∃ k, w - fs.length = k + 1 :=
    ⟨w - fs.length - 1, by omega⟩
  rw [hk, List.replicate_succ', ← List.append_assoc, List.getLast?_concat]

/-- Full behaviour of the table builder: it raises (the `.strip()` of a
missing-value column label) exactly when some data line splits into MORE
fields than the column-header line; otherwise it succeeds, padding SHORTER
data lines with missing values up to the header width. -/
theorem buildTableRows_spec (hd : String) (ds : List String) :
    (¬ (∀ d ∈ ds, (pySplit d "\t").length ≤ (pySplit hd "\t").length) →
        buildTableRows hd ds = .error "AttributeError: float object has no attribute strip")
    ∧ ((∀ d ∈ ds, (pySplit d "\t").length ≤ (pySplit hd "\t").length) →
        buildTableRows hd ds = .ok
          { columns := (pySplit hd "\t").dropLast ++ [pyStrip ((pySplit hd "\t").getLastD "")],
            rows := ds.map (fun d => padRow (pySplit hd "\t").length (pySplit d "\t")) }) := by
  have hfne := pySplit_ne_nil hd "\t"
  have hWge : (pySplit hd "\t").length ≤ frameWidth hd ds := by
    apply mem_le_foldl_max
    simp
  have hmemW : ∀ d ∈ ds, (pySplit d "\t").length ≤ frameWidth hd ds := by
    intro d hdm
    apply mem_le_foldl_max
    simp only [List.map_cons, List.mem_cons, List.mem_map]
    right
    exact ⟨pySplit d "\t", ⟨d, hdm, rfl⟩, rfl⟩
  constructor
  · intro hnot
    push_neg at hnot
    obtain ⟨d, hdm, hlt⟩ := hnot
    have hgt : (pySplit hd "\t").length < frameWidth hd ds :=
      lt_of_lt_of_le hlt (hmemW d hdm)
    unfold buildTableRows
    rw [padRow_getLast_of_gt _ _ hgt]
  · intro hall
    have hWle : frameWidth hd ds ≤ (pySplit hd "\t").length := by
      apply foldl_max_le _ _ _ (Nat.zero_le _)
      intro x hx
      simp only [List.map_cons, List.mem_cons, List.mem_map] at hx
      rcases hx with rfl | ⟨y, ⟨d, hdm, rfl⟩, rfl⟩
      · exact le_refl _
      · exact hall d hdm
    have hWeq : frameWidth hd ds = (pySplit hd "\t").length := le_antisymm hWle hWge
    unfold buildTableRows
    rw [padRow_getLast_of_le _ _ hWle]
    cases hl : (pySplit hd "\t").getLast? with
    | none => exact absurd (List.getLast?_eq_none_iff.mp hl) hfne
    | some x =>
      have hlast : (pySplit hd "\t").getLastD "" = x := by
        rw [List.getLastD_eq_getLast?, hl]; rfl
      simp only [Option.map_some']
      rw [hWeq, hlast]

/-! ### Concrete example inputs -/

/-- A minimal well-formed input: a column-header line and one data line,
as `readlines()` returns them (trailing newlines kept). -/
def exLines1 : List String :=
  ["#CHROM\tPOS\tID\tREF\tALT\tQUAL\tFILTER\tINFO\n",
   "1\t10000\trs1\tA\tG\t50\tPASS\tDP=10\n"]

/-- The single data row `loadVcf exLines1` produces. -/
def exRow1 : List Cell :=
  [Cell.str "1", Cell.str "10000", Cell.str "rs1", Cell.str "A",
   Cell.str "G", Cell.str "50", Cell.str "PASS", Cell.str "DP=10\n"]

/-- The table `loadVcf exLines1` produces. -/
def exTable1 : VcfTable :=
  { columns := ["#CHROM", "POS", "ID", "REF", "ALT", "QUAL", "FILTER", "INFO"],
    rows := [exRow1] }

/-- The file value `loadVcf exLines1` produces. -/
def exFile1 : VcfFile := { header := emptyHeader, table := exTable1 }

/-- An input whose data line has fewer tab-fields (1) than the
column-header line (2). -/
def exLines2 : List String := ["#CHROM\tPOS\n", "1\n"]

/-- The file value `loadVcf exLines2` produces: the short row is padded
with a missing-value marker, not rejected. -/
def exFile2 : VcfFile :=
  { header := emptyHeader,
    table := { columns := ["#CHROM", "POS"], rows := [[Cell.str "1\n", Cell.na]] } }

/-- Two contig declarations with distinct IDs; the second carries no
`species` attribute. -/
def exHeaderLines3 : List String :=
  ["##contig=<ID=1,species=human,length=10>\n",
   "##contig=<ID=2,length=20>\n"]

/-- The header state after `exHeaderLines3`: one contig slot only — the
length of contig 1 is gone, while its species leaks into the final state. -/
def exHeader3 : HeaderState :=
  { contig := some "<ID=2,length=20>",
    contigSpecies := some "human",
    contigLength := some 20 }

/-- A `source` header line whose value itself contains `=`. -/
def exHeaderLines4 : List String := ["##source=2020=tool\n"]

/-- Header lines exercising repetition of a scalar keyword. -/
def exHeaderLines4b : List String :=
  ["##fileformat=VCFv4.2\n", "##source=alpha\n", "##source=beta\n"]

/-! ### Claim theorems -/

/-- C1 counterexample. The claim says that after load the CHROM and
POS cells are stored as integers (or a null marker on parse failure).  On
this input load succeeds and the CHROM cell of the only data row is the
raw STRING `"1"` — not an integer cell and not the null marker. -/
theorem c1_counterexample :
    loadVcf exLines1 = .ok exFile1
    ∧ cellAt (exFile1.table.rows.getD 0 []) 0 = Cell.str "1"
    ∧ (Cell.str "1").isIntCell = false
    ∧ Cell.str "1" ≠ Cell.na := by
  refine ⟨rfl, rfl, rfl, by decide⟩

/-- C1 (amended): after load completes, EVERY cell of every data row —
the CHROM and POS columns included — is stored as raw text or the frame's
null padding marker, never as an integer; the loader performs no re-typing
(integer conversion happens only inside `getPosition`, via
`pd.to_numeric`, which raises on failure instead of storing null). -/
theorem c1_cells_stay_text (lines : List String) (f : VcfFile)
    (h : loadVcf lines = .ok f) :
    ∀ r ∈ f.table.rows, ∀ c ∈ r, c.isIntCell = false :=
  loadVcf_cells_not_int lines f h

/-- Witness: `c1_cells_stay_text` applied to the concrete load above. -/
theorem c1_cells_stay_text_witness :
    loadVcf exLines1 = .ok exFile1 ∧ (Cell.str "1").isIntCell = false :=
  ⟨rfl, c1_cells_stay_text exLines1 exFile1 rfl exRow1 (by decide)
    (Cell.str "1") (by decide)⟩

/-- C2 counterexample. The claim says a data line whose tab-field
count differs from the column count makes the load fail with no padding.
Here the data line has 1 field against 2 column names, yet load SUCCEEDS
and the row is padded with a missing-value marker. -/
theorem c2_counterexample :
    (pySplit "1\n" "\t").length ≠ (pySplit "#CHROM\tPOS\n" "\t").length
    ∧ loadVcf exLines2 = .ok exFile2
    ∧ exFile2.table.rows = [[Cell.str "1\n", Cell.na]] := by
  refine ⟨by decide, rfl, rfl⟩

/-- C2 (amended): given the non-meta lines split as header plus data
and a header section that parses, the load fails exactly when some data
line splits into MORE tab-fields than the column-header line (pandas pads
the header row, and `.strip()` of the padding marker raises
AttributeError); a data line with FEWER fields is silently padded with
null markers up to the header width — no error, no truncation. -/
theorem c2_short_rows_padded (lines : List String) (hd : String) (ds : List String)
    (hh : HeaderState)
    (hsplit : tabLines lines = hd :: ds)
    (hmeta : processMeta (metaItems lines) = .ok hh) :
    ((∃ f, loadVcf lines = .ok f) ↔
        ∀ d ∈ ds, (pySplit d "\t").length ≤ (pySplit hd "\t").length)
    ∧ (∀ f, loadVcf lines = .ok f →
        f.table.rows = ds.map (fun d => padRow (pySplit hd "\t").length (pySplit d "\t"))) := by
  have hbt : buildTable lines = buildTableRows hd ds := by
    unfold buildTable; rw [hsplit]
  have hload : loadVcf lines =
      (buildTableRows hd ds).bind (fun t => .ok { header := hh, table := t }) := by
    unfold loadVcf
    rw [hmeta, hbt]
    simp [Bind.bind, Except.bind]
  by_cases hall : ∀ d ∈ ds, (pySplit d "\t").length ≤ (pySplit hd "\t").length
  · have hok := (buildTableRows_spec hd ds).2 hall
    rw [hok] at hload
    constructor
    · exact ⟨fun _ => hall, fun _ => ⟨_, by rw [hload]; rfl⟩⟩
    · intro f hf
      rw [hload] at hf
      simp only [Except.bind, Except.ok.injEq] at hf
      rw [← hf]
  · have herr := (buildTableRows_spec hd ds).1 hall
    rw [herr] at hload
    constructor
    · constructor
      · intro ⟨f, hf⟩
        rw [hload] at hf
        simp [Except.bind] at hf
      · intro h2; exact absurd h2 hall
    · intro f hf
      rw [hload] at hf
      simp [Except.bind] at hf

/-- Witness: `c2_short_rows_padded` applied to the concrete short-row
input; the load succeeds and pads. -/
theorem c2_short_rows_padded_witness :
    (∃ f, loadVcf exLines2 = .ok f)
    ∧ (∀ f, loadVcf exLines2 = .ok f →
        f.table.rows = [[Cell.str "1\n", Cell.na]]) := by
  have H := c2_short_rows_padded exLines2 "#CHROM\tPOS\n" ["1\n"] emptyHeader rfl rfl
  exact ⟨H.1.mpr (by decide), fun f hf => (H.2 f hf).trans (by rfl)⟩

/-- C3 counterexample. The claim says contig declarations are stored
in a mapping keyed by the integer `ID=`, later same-ID declarations
completely overwrite, and DISTINCT IDs yield DISTINCT retained entries.
After two declarations with distinct IDs (1 and 2) the parser retains one
single contig slot: the length of contig 1 is gone (only 20 remains), and
because declaration 2 has no species, the species of contig 1 ("human")
leaks into the final state — so the overwrite is not complete either. -/
theorem c3_counterexample :
    processMeta (metaItems exHeaderLines3) = .ok exHeader3
    ∧ exHeader3.contigLength = some 20
    ∧ exHeader3.contigLength ≠ some 10
    ∧ exHeader3.contigSpecies = some "human" := by
  refine ⟨rfl, rfl, by decide, rfl⟩

/-- C3 (amended): there is no mapping keyed by contig ID.  The parser
keeps ONE set of contig attributes: each declaration line overwrites
`contig` with the text after the last `contig=`, and overwrites
species/length/assembly/taxonomy only when the corresponding token occurs
in the line (`length` additionally parsed by `int`, whose failure aborts
the load); each retained attribute is the one from the LAST line that set
it, so attributes absent from later declarations persist from earlier
ones, regardless of IDs. -/
theorem c3_single_contig_slot (items : List String) (h : HeaderState)
    (hok : processMeta items = .ok h) :
    h.contig = (((items.filter (fun it => isContigLine it)).getLast?).map
        (fun it => some (lastPartAfter it "contig="))).getD none
    ∧ h.contigSpecies =
        (((items.filter (fun it => isContigLine it && pyIn "species" it)).getLast?).map
          (fun it => some (attrPart it "species="))).getD none
    ∧ h.contigLength =
        (((items.filter (fun it => isContigLine it && pyIn "length" it)).getLast?).map
          (fun it => parsePyInt (attrPart it "length="))).getD none
    ∧ h.contigAssembly =
        (((items.filter (fun it => isContigLine it && pyIn "assembly" it)).getLast?).map
          (fun it => some (attrPart it "assembly="))).getD none
    ∧ h.contigTaxonomy =
        (((items.filter (fun it => isContigLine it && pyIn "taxonomy" it)).getLast?).map
          (fun it => some (attrPart it "taxonomy="))).getD none :=
  ⟨processMeta_contig items h hok, processMeta_contigSpecies items h hok,
   processMeta_contigLength items h hok, processMeta_contigAssembly items h hok,
   processMeta_contigTaxonomy items h hok⟩

/-- Witness: `c3_single_contig_slot` applied to the two-declaration input. -/
theorem c3_single_contig_slot_witness :
    processMeta (metaItems exHeaderLines3) = .ok exHeader3
    ∧ exHeader3.contig = some "<ID=2,length=20>"
    ∧ exHeader3.contigSpecies = some "human" := by
  refine ⟨rfl, ?_, ?_⟩
  · have H := c3_single_contig_slot (metaItems exHeaderLines3) exHeader3 rfl
    rw [H.1]; rfl
  · have H := c3_single_contig_slot (metaItems exHeaderLines3) exHeader3 rfl
    rw [H.2.1]; rfl

/-- C4 counterexample. The claim says the stored scalar value is
everything after the FIRST `=` of the line.  For `##source=2020=tool` the
value after the first `=` is `"2020=tool"`, but the code stores
`item.split("=")[-1]`, i.e. `"tool"` — the segment after the LAST `=`. -/
theorem c4_counterexample :
    processMeta (metaItems exHeaderLines4) = .ok { source := some "tool" }
    ∧ ("tool" : String) ≠ "2020=tool" := by
  refine ⟨rfl, by decide⟩

/-- C4 (amended): for each scalar keyword (`fileformat`, `fileDate`,
`source`, `reference`, `phasing`), the stored value is the segment after
the LAST `=` of the stripped line (so trailing whitespace is trimmed at
the line level), taken from the last line routed to that keyword's branch
of the if/elif chain (prefix match) — last occurrence wins. -/
theorem c4_scalar_last_eq_segment (items : List String) (h : HeaderState)
    (hok : processMeta items = .ok h) :
    h.fileformat = (((items.filter (fun it => isFileformatLine it)).getLast?).map
        (fun it => some (scalarVal it))).getD none
    ∧ h.fileDate = (((items.filter (fun it => isFileDateLine it)).getLast?).map
        (fun it => some (scalarVal it))).getD none
    ∧ h.source = (((items.filter (fun it => isSourceLine it)).getLast?).map
        (fun it => some (scalarVal it))).getD none
    ∧ h.reference = (((items.filter (fun it => isReferenceLine it)).getLast?).map
        (fun it => some (scalarVal it))).getD none
    ∧ h.phasing = (((items.filter (fun it => isPhasingLine it)).getLast?).map
        (fun it => some (scalarVal it))).getD none :=
  ⟨processMeta_fileformat items h hok, processMeta_fileDate items h hok,
   processMeta_source items h hok, processMeta_reference items h hok,
   processMeta_phasing items h hok⟩

/-- Witness: `c4_scalar_last_eq_segment` on a repeated `source` keyword —
the last occurrence wins. -/
theorem c4_scalar_last_eq_segment_witness :
    processMeta (metaItems exHeaderLines4b) =
      .ok { fileformat := some "VCFv4.2", source := some "beta" }
    ∧ ({ fileformat := some "VCFv4.2", source := some "beta" } : HeaderState).source
        = some "beta" := by
  refine ⟨rfl, ?_⟩
  have H := c4_scalar_last_eq_segment (metaItems exHeaderLines4b)
    { fileformat := some "VCFv4.2", source := some "beta" } rfl
  rw [H.2.2.1]; rfl

/-- C5. The claim says `getKey` returns the description for a key
present in the static INFO/FORMAT tables and an explicit "unknown key"
result otherwise, never throwing.  The code is wrong: its first statement
reads the undefined name `common_Info_key` (the tables are the class
attributes `common_Info_keys`/`common_Format_keys`), so it raises
NameError for EVERY key — even `"DP"`, which is present in both static
tables. -/
theorem c5_getKey_always_raises :
    (∀ key, getKey key = .error "NameError: name common_Info_key is not defined")
    ∧ common_Info_keys.lookup "DP" = some "combined depth across samples, e.g. DP=154"
    ∧ common_Format_keys.lookup "DP" = some "Read depth" :=
  ⟨fun _ => rfl, rfl, rfl⟩

/-- C6 counterexample. The claim says every value retrievable through
a query equals the verbatim tab-delimited field of the original input
line, including the last field of each data row.  The loader never strips
data lines, so the INFO cell retrieved through `qFilter` is `"DP=10\n"` —
the verbatim field `"DP=10"` plus the line's trailing newline. -/
theorem c6_counterexample :
    loadVcf exLines1 = .ok exFile1
    ∧ qFilter exFile1.table "PASS" = .ok (.rows [exRow1])
    ∧ cellAt exRow1 7 = Cell.str "DP=10\n"
    ∧ ("DP=10\n" : String) ≠ "DP=10" := by
  refine ⟨rfl, rfl, rfl, by decide⟩

/-- C6 (amended): every stored row is, after removing the trailing
null padding, exactly the tab-split fields of one non-meta input line AS
READ — i.e. the last field still carries the line's terminating newline;
splitting introduces no other change to any cell. -/
theorem c6_row_provenance (lines : List String) (f : VcfFile) (r : List Cell)
    (h : loadVcf lines = .ok f) (hr : r ∈ f.table.rows) :
    ∃ line, line ∈ lines ∧ (!pyStartswith line "##") = true ∧
      stripNa r = (pySplit line "\t").map Cell.str :=
  loadVcf_row_provenance lines f r h hr

/-- Witness: `c6_row_provenance` on the concrete load. -/
theorem c6_row_provenance_witness :
    loadVcf exLines1 = .ok exFile1
    ∧ ∃ line, line ∈ exLines1 ∧ (!pyStartswith line "##") = true ∧
        stripNa exRow1 = (pySplit line "\t").map Cell.str :=
  ⟨rfl, c6_row_provenance exLines1 exFile1 exRow1 rfl (by decide)⟩

/-! ### The position-range query -/

/-- The numeric value `pd.to_numeric` yields for a cell when it does not
raise (`none` is pandas NaN). -/
def numValC (c : Cell) : Option Int :=
  match toNumericCell c with
  | .ok v => v
  | .error _ => none

theorem toNumericCell_eq_ok_numValC (c : Cell)
    (h : (toNumericCell c).isOk = true) : toNumericCell c = .ok (numValC c) := by
  unfold numValC
  cases hc : toNumericCell c with
  | error e => rw [hc] at h; simp [Except.isOk, Except.toBool] at h
  | ok v => rfl

/-- Method `getPosition` behaves the same on a two-element position list and any
other with the same length, min and max — the source only uses
`len(pos)`, `min(pos)` and `max(pos)`. -/
theorem getPosition_list_congr (t : VcfTable) (ch : PyVal) (ps qs : List Int)
    (h1 : ps.length = qs.length) (h2 : pyMin ps = pyMin qs) (h3 : pyMax ps = pyMax qs) :
    getPosition t ch (.list ps) = getPosition t ch (.list qs) := by
  cases ch with
  | str s => rfl
  | int c =>
    simp only [getPosition]
    rw [h1, h2, h3]

theorem getPosition_range_spec (t : VcfTable) (c a b : Int) (ci pj : Nat)
    (hci : colIdx t "#CHROM" = .ok ci) (hpj : colIdx t "POS" = .ok pj)
    (hnum : ∀ r ∈ t.rows, (toNumericCell (cellAt r ci)).isOk = true
        ∧ (toNumericCell (cellAt r pj)).isOk = true) :
    getPosition t (.int c) (.list [a, b]) =
      .ok (.rows (t.rows.filter (fun r =>
        (numValC (cellAt r ci) == some c) &&
        (match numValC (cellAt r pj) with
         | some v => decide (min a b ≤ v) && decide (v ≤ max a b)
         | none => false)))) := by
  have hmap1 : t.rows.mapM (fun r => toNumericCell (cellAt r ci))
      = .ok (t.rows.map (fun r => numValC (cellAt r ci))) :=
    mapM_ok_of_forall _ _ t.rows
      (fun r hr => toNumericCell_eq_ok_numValC _ (hnum r hr).1)
  simp only [getPosition]
  rw [hci]
  simp only [Bind.bind, Except.bind]
  rw [hmap1]
  simp only [List.map_map]
  rw [maskFilter_map]
  rw [if_pos (show (([a, b] : List Int).length == 2) = true from rfl)]
  have hmap2 : (t.rows.filter
        ((fun n => n == some c) ∘ fun r => numValC (cellAt r ci))).mapM
        (fun r => toNumericCell (cellAt r pj))
      = .ok ((t.rows.filter
          ((fun n => n == some c) ∘ fun r => numValC (cellAt r ci))).map
            (fun r => numValC (cellAt r pj))) :=
    mapM_ok_of_forall _ _ _
      (fun r hr => toNumericCell_eq_ok_numValC _
        (hnum r (List.mem_of_mem_filter hr)).2)
  simp only [hpj, hmap2]
  simp only [List.map_map]
  rw [maskFilter_map, List.filter_filter]
  refine congrArg (fun l => Except.ok (QueryResult.rows l)) ?_
  apply List.filter_congr
  intro x hx
  cases hx2 : numValC (cellAt x pj) <;>
    simp [Function.comp, hx2, pyMin, pyMax, Bool.and_comm]

/-- C7. Order-independence of the range bounds: `getPosition` with a
two-element position list compares against `min(pos)` and `max(pos)`, so
swapping the bounds gives literally the same result (whether rows, an
error, or a message); and whenever the CHROM and POS columns resolve and
every cell of both columns converts numerically, the result is exactly
the rows with CHROM equal to the chromosome and POS within the inclusive
interval `[min a b, max a b]`. -/
theorem c7_range_bounds_order_independent (t : VcfTable) (c a b : Int) :
    getPosition t (.int c) (.list [a, b]) = getPosition t (.int c) (.list [b, a])
    ∧ (∀ ci pj, colIdx t "#CHROM" = .ok ci → colIdx t "POS" = .ok pj →
        (∀ r ∈ t.rows, (toNumericCell (cellAt r ci)).isOk = true
            ∧ (toNumericCell (cellAt r pj)).isOk = true) →
        getPosition t (.int c) (.list [a, b]) =
          .ok (.rows (t.rows.filter (fun r =>
            (numValC (cellAt r ci) == some c) &&
            (match numValC (cellAt r pj) with
             | some v => decide (min a b ≤ v) && decide (v ≤ max a b)
             | none => false))))) :=
  ⟨getPosition_list_congr t (.int c) [a, b] [b, a] rfl (min_comm a b) (max_comm a b),
   fun ci pj hci hpj hnum => getPosition_range_spec t c a b ci pj hci hpj hnum⟩

/-- Witness: the range query on the concrete table, with the bounds given
in descending order, returns the row at POS 10000. -/
theorem c7_range_bounds_order_independent_witness :
    getPosition exTable1 (.int 1) (.list [20000, 5])
      = getPosition exTable1 (.int 1) (.list [5, 20000])
    ∧ getPosition exTable1 (.int 1) (.list [20000, 5]) = .ok (.rows [exRow1]) := by
  have H := c7_range_bounds_order_independent exTable1 1 20000 5
  refine ⟨H.1, ?_⟩
  rw [H.2 0 1 rfl rfl (by decide)]
  rfl

/-- C8. `qFilter` in PASS mode and FAIL mode partition the row set:
the two selections are complementary filters of the same table, so their
lengths add up to the table's, every row lands in exactly one of them,
and both are made of table rows. -/
theorem c8_pass_fail_partition (t : VcfTable) (l1 l2 : List (List Cell))
    (h1 : qFilter t "PASS" = .ok (.rows l1))
    (h2 : qFilter t "FAIL" = .ok (.rows l2)) :
    l1.length + l2.length = t.rows.length
    ∧ (∀ r ∈ t.rows, r ∈ l1 ∨ r ∈ l2)
    ∧ (∀ r, r ∈ l1 → r ∉ l2)
    ∧ (∀ r ∈ l1, r ∈ t.rows)
    ∧ (∀ r ∈ l2, r ∈ t.rows) := by
  unfold qFilter at h1 h2
  rw [if_pos (show ((("PASS" : String) == "PASS") = true) from rfl)] at h1
  rw [if_neg (show ¬ ((("FAIL" : String) == "PASS") = true) by decide),
      if_pos (show ((("FAIL" : String) == "FAIL") = true) from rfl)] at h2
  cases hci : colIdx t "FILTER" with
  | error e =>
    rw [hci] at h1
    simp [Except.map] at h1
  | ok i =>
    rw [hci] at h1 h2
    simp only [Except.map, Except.ok.injEq, QueryResult.rows.injEq] at h1 h2
    subst h1
    subst h2
    refine ⟨length_filter_add_length_filter_not _ _, ?_, ?_, ?_, ?_⟩
    · intro r hr
      by_cases hp : cellEqPass (cellAt r i)
      · exact Or.inl (List.mem_filter.mpr ⟨hr, hp⟩)
      · exact Or.inr (List.mem_filter.mpr ⟨hr, by simp [hp]⟩)
    · intro r hr1 hr2
      have hp1 := (List.mem_filter.mp hr1).2
      have hp2 := (List.mem_filter.mp hr2).2
      rw [hp1] at hp2
      simp at hp2
    · exact fun r hr => (List.mem_filter.mp hr).1
    · exact fun r hr => (List.mem_filter.mp hr).1

/-- Witness: `c8_pass_fail_partition` on the concrete one-row table. -/
theorem c8_pass_fail_partition_witness :
    qFilter exTable1 "PASS" = .ok (.rows [exRow1])
    ∧ qFilter exTable1 "FAIL" = .ok (.rows [])
    ∧ ([exRow1].length + ([] : List (List Cell)).length = exTable1.rows.length) := by
  refine ⟨rfl, rfl, ?_⟩
  exact (c8_pass_fail_partition exTable1 [exRow1] [] rfl rfl).1

/-- C9. `getChromosomes` tests each stored CHROM cell — a raw string
on any loaded table — by Python equality against the caller-supplied
collection, so a collection of integers matches no row at all (Python
`int == str` is always false); only elements string-equal to a stored
cell select rows. -/
theorem c9_chromosome_filter_string_equality (lines : List String) (f : VcfFile)
    (vs : List PyVal) (ci : Nat)
    (hload : loadVcf lines = .ok f)
    (hci : colIdx f.table "#CHROM" = .ok ci) :
    getChromosomes f.table vs =
      .ok (.rows (f.table.rows.filter (fun r => isinCell (cellAt r ci) vs)))
    ∧ ((∀ v ∈ vs, v.isIntVal = true) →
        getChromosomes f.table vs = .ok (.rows [])) := by
  have hmain : getChromosomes f.table vs =
      .ok (.rows (f.table.rows.filter (fun r => isinCell (cellAt r ci) vs))) := by
    unfold getChromosomes
    rw [hci]
    rfl
  refine ⟨hmain, fun hint => ?_⟩
  rw [hmain]
  have hnil : f.table.rows.filter (fun r => isinCell (cellAt r ci) vs) = [] := by
    apply List.filter_eq_nil_iff.mpr
    intro r hr
    have hcell : (cellAt r ci).isIntCell = false := by
      by_cases hlt : ci < r.length
      · have hm : cellAt r ci ∈ r := by
          rw [cellAt, List.getD_eq_getElem r Cell.na hlt]
          exact List.getElem_mem hlt
        exact loadVcf_cells_not_int lines f hload r hr _ hm
      · rw [cellAt, List.getD_eq_default r Cell.na (Nat.le_of_not_lt hlt)]
        rfl
    cases hc : cellAt r ci with
    | na => simp [isinCell, hc]
    | int n => rw [hc] at hcell; simp [Cell.isIntCell] at hcell
    | str s =>
      simp only [hc, isinCell]
      intro hcontains
      have hmem : PyVal.str s ∈ vs := List.mem_of_elem_eq_true hcontains
      have hv := hint _ hmem
      simp [PyVal.isIntVal] at hv
  rw [hnil]

/-- Witness: on the loaded table whose CHROM cell is the string `"1"`,
the integer collection `[1]` selects nothing. -/
theorem c9_chromosome_filter_string_equality_witness :
    loadVcf exLines1 = .ok exFile1
    ∧ getChromosomes exFile1.table [PyVal.int 1] = .ok (.rows [])
    ∧ getChromosomes exFile1.table [PyVal.str "1"] = .ok (.rows [exRow1]) := by
  refine ⟨rfl, ?_, rfl⟩
  exact (c9_chromosome_filter_string_equality exLines1 exFile1 [PyVal.int 1] 0
    rfl rfl).2 (by decide)

/-- C10. Every row-filtering query returns a subsequence of the
record table: whenever `getChromosomes`, `getSNPs`, `getMicrosatellites`
or `qFilter` returns a row selection, that selection is a sublist of the
table's rows — each returned row is a table row, appears at most as often
as it does in the table, and the original relative order is preserved. -/
theorem c10_queries_return_subsequences (t : VcfTable) :
    (∀ vs l, getChromosomes t vs = .ok (.rows l) → l.Sublist t.rows)
    ∧ (∀ l, getSNPs t = .ok (.rows l) → l.Sublist t.rows)
    ∧ (∀ l, getMicrosatellites t = .ok (.rows l) → l.Sublist t.rows)
    ∧ (∀ mode l, qFilter t mode = .ok (.rows l) → l.Sublist t.rows) := by
  refine ⟨?_, ?_, ?_, ?_⟩
  · intro vs l h
    unfold getChromosomes at h
    cases hci : colIdx t "#CHROM" with
    | error e => rw [hci] at h; simp [Except.map] at h
    | ok i =>
      rw [hci] at h
      simp only [Except.map, Except.ok.injEq, QueryResult.rows.injEq] at h
      rw [← h]
      exact List.filter_sublist _
  · intro l h
    unfold getSNPs at h
    cases hci : colIdx t "REF" with
    | error e => rw [hci] at h; simp [Except.map] at h
    | ok i =>
      rw [hci] at h
      simp only [Except.map, Except.ok.injEq, QueryResult.rows.injEq] at h
      rw [← h]
      exact List.filter_sublist _
  · intro l h
    unfold getMicrosatellites at h
    cases hci : colIdx t "ID" with
    | error e => rw [hci] at h; simp [Bind.bind, Except.bind] at h
    | ok i =>
      rw [hci] at h
      simp only [Bind.bind, Except.bind] at h
      cases hm : t.rows.mapM (fun r => microMask (cellAt r i)) with
      | error e => rw [hm] at h; simp at h
      | ok mask =>
        rw [hm] at h
        simp only [Except.ok.injEq, QueryResult.rows.injEq] at h
        rw [← h]
        exact maskFilter_sublist _ _
  · intro mode l h
    unfold qFilter at h
    split_ifs at h
    · cases hci : colIdx t "FILTER" with
      | error e => rw [hci] at h; simp [Except.map] at h
      | ok i =>
        rw [hci] at h
        simp only [Except.map, Except.ok.injEq, QueryResult.rows.injEq] at h
        rw [← h]
        exact List.filter_sublist _
    · cases hci : colIdx t "FILTER" with
      | error e => rw [hci] at h; simp [Except.map] at h
      | ok i =>
        rw [hci] at h
        simp only [Except.map, Except.ok.injEq, QueryResult.rows.injEq] at h
        rw [← h]
        exact List.filter_sublist _
    · simp at h

/-- Witness: `c10_queries_return_subsequences` on the concrete table
through the filter-status query. -/
theorem c10_queries_return_subsequences_witness :
    qFilter exTable1 "PASS" = .ok (.rows [exRow1])
    ∧ ([exRow1] : List (List Cell)).Sublist exTable1.rows :=
  ⟨rfl, (c10_queries_return_subsequences exTable1).2.2.2 "PASS" [exRow1] rfl⟩
